import Mathlib

/-!
A shallow embedding of the Impeller Vulkan render-pass encoder
(src/impeller/renderer/backend/vulkan/render_pass_vk.cc) and proofs about
its attachment ordering, clear values, resource binding and encode paths.

Device handles (textures, image views, samplers, buffers, descriptor sets)
are modelled as natural numbers.  Recording into the command buffer and the
calls made on the command encoder are modelled as an append-only trace of
operations (`Op`).  Fallible collaborator calls (layout transitions,
resource tracking, descriptor-set allocation, buffer resolution) are
modelled by an environment (`Env`) of response functions, so that every
success/failure interleaving of the source code is representable.
-/

namespace RenderPassVKModel

/-- A texture: its identity, its image-view handle (`GetImageView`) and the
descriptor fields (format, sample count) that attachment descriptions are
built from. -/
structure Texture where
  id : Nat
  format : Nat
  sampleCount : Nat
  imageView : Nat
  deriving DecidableEq

/-- Load actions of an attachment. -/
inductive LoadAction
  | load
  | clear
  | dontCare
  deriving DecidableEq

/-- Store actions of an attachment. -/
inductive StoreAction
  | store
  | dontCare
  | multisampleResolve
  | storeAndMultisampleResolve
  deriving DecidableEq

/-- The kind tag passed to CreateAttachmentDescription. -/
inductive AttachmentKind
  | color
  | depth
  | stencil
  deriving DecidableEq

/-- A color value (Color in impeller; componentwise copied into clear
values, so component arithmetic never occurs and an integral model is
faithful). -/
structure Color where
  red : Int
  green : Int
  blue : Int
  alpha : Int
  deriving DecidableEq

/-- Attachment (impeller RenderTarget model): primary texture, optional
resolve texture, load and store actions. -/
structure Attachment where
  texture : Texture
  resolve_texture : Option Texture
  load_action : LoadAction
  store_action : StoreAction
  deriving DecidableEq

/-- ColorAttachment: an Attachment plus its clear color. -/
structure ColorAttachment extends Attachment where
  clear_color : Color
  deriving DecidableEq

/-- DepthAttachment: an Attachment plus its clear depth. -/
structure DepthAttachment extends Attachment where
  clear_depth : Int
  deriving DecidableEq

/-- StencilAttachment: an Attachment plus its clear stencil. -/
structure StencilAttachment extends Attachment where
  clear_stencil : Nat
  deriving DecidableEq

/-- An integral size (ISize). -/
structure ISize where
  width : Int
  height : Int
  deriving DecidableEq

/-- RenderTarget: color attachments as the (bind index, attachment) pairs
in the iteration order of the underlying ordered map (ascending bind
index), optional depth and stencil attachments, and the render-target
size. -/
structure RenderTarget where
  colors : List (Nat × ColorAttachment)
  depth : Option DepthAttachment
  stencil : Option StencilAttachment
  size : ISize
  deriving DecidableEq

/-- RenderTarget::HasColorAttachment.  Modelled from the spec: the accessor
lives outside src; the RenderTarget is "an ordered mapping from bind index
to Attachment", so presence is lookup success. -/
def RenderTarget.HasColorAttachment (t : RenderTarget) (idx : Nat) : Bool :=
  (t.colors.lookup idx).isSome

/-- RenderTarget::GetMaxColorAttacmentBindIndex (sic).  Modelled from the
spec: the accessor lives outside src; it is the maximum populated color
bind index of the target. -/
def RenderTarget.GetMaxColorAttacmentBindIndex (t : RenderTarget) : Nat :=
  t.colors.foldl (fun m p => max m p.1) 0

/-- Vulkan image layouts used by this translation unit. -/
inductive Layout
  | undefined
  | colorAttachmentOptimal
  | depthStencilAttachmentOptimal
  | depthAttachmentOptimal
  | stencilAttachmentOptimal
  | shaderReadOnlyOptimal
  deriving DecidableEq

/-- vk::AttachmentReference: index into the pass's attachment array plus
the layout the attachment is used in. -/
structure AttachmentReference where
  attachment : Nat
  layout : Layout
  deriving DecidableEq

/-- The VK_ATTACHMENT_UNUSED sentinel reference (kUnusedAttachmentReference
from formats_vk.h, outside src; modelled from the spec's "sentinel unused
reference").  VK_ATTACHMENT_UNUSED is 0xFFFFFFFF. -/
def kUnusedAttachmentReference : AttachmentReference :=
  { attachment := 4294967295, layout := Layout.undefined }

/-- vk::AttachmentDescription as produced by the formats_vk helper: format
and sample count of the consulted texture, the kind tag, and the load and
store actions. -/
structure AttachmentDescription where
  format : Nat
  sampleCount : Nat
  kind : AttachmentKind
  load_action : LoadAction
  store_action : StoreAction
  deriving DecidableEq

/-- CreateAttachmentDescription (render_pass_vk.cc:30): builds a
description from the attachment's texture descriptor, consulting the
resolve texture when the flag is set (callers pass true only when a
resolve texture is present, so `getD` is never the default there). -/
def CreateAttachmentDescription (a : Attachment) (kind : AttachmentKind)
    (resolve_texture : Bool) : AttachmentDescription :=
  let tex := if resolve_texture then a.resolve_texture.getD a.texture else a.texture
  { format := tex.format
    sampleCount := tex.sampleCount
    kind := kind
    load_action := a.load_action
    store_action := a.store_action }

/-- The color-attachment loop of CreateVKRenderPass
(render_pass_vk.cc:67-80): for each (bind point, color) in bind-index
order, record a color reference at the bind point (pointing at the next
attachment index) and append the primary description; if a resolve texture
is present, record a resolve reference and append the resolve
description. -/
def colorAttachmentsFold :
    List (Nat × ColorAttachment) → List AttachmentDescription →
    List AttachmentReference → List AttachmentReference →
    List AttachmentDescription × List AttachmentReference × List AttachmentReference
  | [], atts, color_refs, resolve_refs => (atts, color_refs, resolve_refs)
  | (bind_point, color) :: rest, atts, color_refs, resolve_refs =>
    let color_refs' := color_refs.set bind_point
      { attachment := atts.length, layout := Layout.colorAttachmentOptimal }
    let atts' := atts ++ [CreateAttachmentDescription color.toAttachment AttachmentKind.color false]
    match color.resolve_texture with
    | none => colorAttachmentsFold rest atts' color_refs' resolve_refs
    | some _ =>
      let resolve_refs' := resolve_refs.set bind_point
        { attachment := atts'.length, layout := Layout.colorAttachmentOptimal }
      let atts'' := atts' ++ [CreateAttachmentDescription color.toAttachment AttachmentKind.color true]
      colorAttachmentsFold rest atts'' color_refs' resolve_refs'

/-- The pure content of the render-pass description CreateVKRenderPass
hands to the device: attachment descriptions, subpass color/resolve
reference arrays and the depth-stencil reference. -/
structure VKRenderPassDesc where
  attachments : List AttachmentDescription
  color_refs : List AttachmentReference
  resolve_refs : List AttachmentReference
  depth_stencil_ref : AttachmentReference
  deriving DecidableEq

/-- CreateVKRenderPass (render_pass_vk.cc:45-115): size the reference
arrays to max color bind index + 1 defaulting every slot to unused, fill
them in the color loop, then append a depth description if a depth
attachment is present, else a stencil description if a stencil attachment
is present. -/
def CreateVKRenderPass (target : RenderTarget) : VKRenderPassDesc :=
  let n := target.GetMaxColorAttacmentBindIndex + 1
  let folded := colorAttachmentsFold target.colors []
    (List.replicate n kUnusedAttachmentReference)
    (List.replicate n kUnusedAttachmentReference)
  let atts := folded.1
  let color_refs := folded.2.1
  let resolve_refs := folded.2.2
  match target.depth with
  | some depth =>
    { attachments := atts ++ [CreateAttachmentDescription depth.toAttachment AttachmentKind.depth false]
      color_refs := color_refs
      resolve_refs := resolve_refs
      depth_stencil_ref := { attachment := atts.length, layout := Layout.depthStencilAttachmentOptimal } }
  | none =>
    match target.stencil with
    | some stencil =>
      { attachments := atts ++ [CreateAttachmentDescription stencil.toAttachment AttachmentKind.stencil false]
        color_refs := color_refs
        resolve_refs := resolve_refs
        depth_stencil_ref := { attachment := atts.length, layout := Layout.depthStencilAttachmentOptimal } }
    | none =>
      { attachments := atts
        color_refs := color_refs
        resolve_refs := resolve_refs
        depth_stencil_ref := kUnusedAttachmentReference }

/-- CreateFramebuffer (render_pass_vk.cc:186-229): the ordered list of
image views handed to the framebuffer: for each color attachment in
bind-index order its primary image view then, if present, its resolve
image view; then the depth image view if a depth attachment is present;
then the stencil image view if a stencil attachment is present (two
independent conditionals). -/
def CreateFramebuffer (target : RenderTarget) : List Nat :=
  (target.colors.flatMap fun p =>
    p.2.texture.imageView ::
      (match p.2.resolve_texture with
       | some rt => [rt.imageView]
       | none => [])) ++
  ((match target.depth with
    | some depth => [depth.texture.imageView]
    | none => []) ++
   (match target.stencil with
    | some stencil => [stencil.texture.imageView]
    | none => []))

/-- vk::ClearValue: either a color clear or a depth-stencil clear. -/
inductive ClearValue
  | color (value : Color)
  | depthStencil (depth : Int) (stencil : Nat)
  deriving DecidableEq

/-- The color loop of GetVKClearValues (render_pass_vk.cc:168-173): one
clear color per color attachment, duplicated when a resolve texture is
present. -/
def clearValuesOfColors : List (Nat × ColorAttachment) → List ClearValue
  | [] => []
  | (_, color) :: rest =>
    ClearValue.color color.clear_color ::
      ((match color.resolve_texture with
        | some _ => [ClearValue.color color.clear_color]
        | none => []) ++ clearValuesOfColors rest)

/-- GetVKClearValues (render_pass_vk.cc:164-184): color clears (duplicated
per resolve) in bind order, then the depth clear if present, then the
stencil clear if present. -/
def GetVKClearValues (target : RenderTarget) : List ClearValue :=
  clearValuesOfColors target.colors ++
  ((match target.depth with
    | some depth => [ClearValue.depthStencil depth.clear_depth 0]
    | none => []) ++
   (match target.stencil with
    | some stencil => [ClearValue.depthStencil 0 stencil.clear_stencil]
    | none => []))

/-- A sampler handle (SamplerVK). -/
structure Sampler where
  id : Nat
  deriving DecidableEq

/-- A buffer view: the underlying buffer object plus its range
(view.resource.buffer, view.resource.range.offset/length). -/
structure BufferView where
  buffer : Nat
  offset : Nat
  length : Nat
  deriving DecidableEq

/-- A sampled-image slot of the pipeline's shader metadata
(bindings.sampled_images.at(index).binding). -/
structure SampledImageSlot where
  binding : Nat
  deriving DecidableEq

/-- A uniform slot of the pipeline's shader metadata
(bindings.uniforms.at(buffer_index).binding). -/
structure ShaderUniformSlot where
  binding : Nat
  deriving DecidableEq

/-- A command's binding table (Bindings): buffers, textures and samplers
keyed by binding slot, plus the shader metadata maps.  The metadata maps
are total functions, modelling the source's unchecked `.at` accesses
(present by pipeline-reflection invariant). -/
structure Bindings where
  buffers : List (Nat × BufferView)
  textures : List (Nat × Texture)
  samplers : List (Nat × Sampler)
  sampled_images : Nat → SampledImageSlot
  uniforms : Nat → ShaderUniformSlot

/-- A pipeline (PipelineVK): its handle, its descriptor-set layout handle
and its pipeline-layout handle. -/
structure PipelineVK where
  id : Nat
  dsLayout : Nat
  pipelineLayout : Nat
  deriving DecidableEq

/-- VertexDescriptor::kReservedVertexBufferIndex.  Modelled from the spec:
the constant lives outside src; it is the reserved per-vertex-data slot,
defined as the maximum size_t value. -/
def kReservedVertexBufferIndex : Nat := 18446744073709551615

/-- A viewport: its rectangle (depth range unused by this translation
unit). -/
structure Pt where
  x : Int
  y : Int
  deriving DecidableEq

/-- A size with scalar components. -/
structure Sz where
  width : Int
  height : Int
  deriving DecidableEq

/-- A rectangle: origin and size. -/
structure Rect where
  origin : Pt
  size : Sz
  deriving DecidableEq

/-- Rect::MakeSize: origin (0,0), the given size. -/
def Rect.MakeSize (s : ISize) : Rect :=
  { origin := { x := 0, y := 0 }, size := { width := s.width, height := s.height } }

/-- Viewport: the rectangle used by SetViewportAndScissor. -/
structure Viewport where
  rect : Rect
  deriving DecidableEq

/-- IRect is a rectangle with integral components; the model shares the
representation. -/
abbrev IRect := Rect

/-- IRect::MakeSize: origin (0,0), the given size. -/
def IRect.MakeSize (s : ISize) : IRect := Rect.MakeSize s

/-- Index types accepted by bindIndexBuffer. -/
inductive IndexTypeVK
  | bit16
  | bit32
  deriving DecidableEq

/-- A queued draw command (Command): pipeline, binding tables, vertex and
index buffer views, draw parameters, optional viewport/scissor overrides,
stencil reference and debug label. -/
structure Command where
  pipeline : Option PipelineVK
  vertex_bindings : Bindings
  fragment_bindings : Bindings
  vertex_buffer : Option BufferView
  index_buffer : Option BufferView
  index_type : IndexTypeVK
  index_count : Nat
  instance_count : Nat
  base_vertex : Nat
  viewport : Option Viewport
  scissor : Option IRect
  stencil_reference : Nat
  label : String

/-- A resource registered with the encoder's tracked-resource set. -/
inductive Res
  | tex (id : Nat)
  | sampler (id : Nat)
  | buffer (id : Nat)
  | framebuffer
  | renderPass
  deriving DecidableEq

/-- A batched descriptor-set write (vk::WriteDescriptorSet): either a
uniform-buffer write or a combined image-sampler write. -/
inductive DescWrite
  | bufferWrite (dstSet dstBinding bufferHandle offset length : Nat)
  | imageWrite (dstSet dstBinding samplerId imageView : Nat)
  deriving DecidableEq

/-- The recorded vk::Viewport: x is never set by the source (so it stays
at its zero default), y and height carry the flipped-Y convention, and the
depth range is fixed. -/
structure VkViewport where
  x : Int
  y : Int
  width : Int
  height : Int
  minDepth : Int
  maxDepth : Int
  deriving DecidableEq

/-- The recorded vk::Rect2D scissor. -/
structure VkRect2D where
  offsetX : Int
  offsetY : Int
  extentW : Int
  extentH : Int
  deriving DecidableEq

/-- One operation of an encode: a command-buffer recording, an encoder
call (debug groups, resource tracking) or a device call (framebuffer
creation, descriptor-set update). -/
inductive Op
  | setLayout (texId : Nat) (l : Layout)
  | track (r : Res)
  | pushDebugGroup (label : String)
  | popDebugGroup
  | createFramebuffer (views : List Nat)
  | updateDescriptorSets (writes : List DescWrite)
  | bindDescriptorSets (descSet pipelineLayout : Nat)
  | bindPipeline (pipeline : Nat)
  | setViewport (v : VkViewport)
  | setScissor (r : VkRect2D)
  | setStencilReference (ref : Nat)
  | bindVertexBuffers (bufferHandle offset : Nat)
  | bindIndexBuffer (bufferHandle offset : Nat) (ty : IndexTypeVK)
  | drawIndexed (indexCount instanceCount firstIndex vertexOffset firstInstance : Nat)
  | beginRenderPass (clears : List ClearValue)
  | endRenderPass
  deriving DecidableEq

/-- The collaborator environment: outcomes of the fallible collaborator
calls.  `setLayout` is TextureVK::SetLayout success per texture, `track`
is CommandEncoderVK::Track success per resource, `allocDescriptorSet` is
descriptor-set allocation per layout handle, `getDeviceBuffer` resolves a
buffer view's buffer to a device allocation, and `getBuffer` gives the
vk::Buffer handle of a device allocation (0 models a null handle). -/
structure Env where
  setLayout : Nat → Bool
  track : Res → Bool
  allocDescriptorSet : Nat → Option Nat
  getDeviceBuffer : Nat → Option Nat
  getBuffer : Nat → Nat

/-- The texture loop of UpdateBindingLayouts(const Bindings&, ...)
(render_pass_vk.cc:304-308): transition each bound texture to
shader-read-only-optimal, stopping at the first failure. -/
def transitionBindingTextures (env : Env) :
    List (Nat × Texture) → Bool × List Op
  | [] => (true, [])
  | (_, tex) :: rest =>
    if env.setLayout tex.id then
      let r := transitionBindingTextures env rest
      (r.1, Op.setLayout tex.id Layout.shaderReadOnlyOptimal :: r.2)
    else (false, [])

/-- UpdateBindingLayouts(const Command&, ...) (render_pass_vk.cc:312-316):
vertex bindings first, then fragment bindings. -/
def UpdateBindingLayoutsCommand (env : Env) (command : Command) : Bool × List Op :=
  let v := transitionBindingTextures env command.vertex_bindings.textures
  if v.1 then
    let f := transitionBindingTextures env command.fragment_bindings.textures
    (f.1, v.2 ++ f.2)
  else (false, v.2)

/-- UpdateBindingLayouts(const std::vector<Command>&, ...)
(render_pass_vk.cc:318-326): every queued command in order, stopping at
the first failure. -/
def UpdateBindingLayouts (env : Env) : List Command → Bool × List Op
  | [] => (true, [])
  | command :: rest =>
    let c := UpdateBindingLayoutsCommand env command
    if c.1 then
      let r := UpdateBindingLayouts env rest
      (r.1, c.2 ++ r.2)
    else (false, c.2)

/-- The color loop of ConfigureAttachments (render_pass_vk.cc:234-264):
transition then track each color texture, and likewise its resolve
texture when present; short-circuit on the first failure. -/
def configureColorAttachments (env : Env) :
    List (Nat × ColorAttachment) → Bool × List Op
  | [] => (true, [])
  | (_, color) :: rest =>
    if env.setLayout color.texture.id then
      if env.track (Res.tex color.texture.id) then
        let hd := [Op.setLayout color.texture.id Layout.colorAttachmentOptimal,
                   Op.track (Res.tex color.texture.id)]
        match color.resolve_texture with
        | none =>
          let r := configureColorAttachments env rest
          (r.1, hd ++ r.2)
        | some rt =>
          if env.setLayout rt.id then
            if env.track (Res.tex rt.id) then
              let r := configureColorAttachments env rest
              (r.1, hd ++ [Op.setLayout rt.id Layout.colorAttachmentOptimal,
                           Op.track (Res.tex rt.id)] ++ r.2)
            else (false, hd ++ [Op.setLayout rt.id Layout.colorAttachmentOptimal])
          else (false, hd)
      else (false, [Op.setLayout color.texture.id Layout.colorAttachmentOptimal])
    else (false, [])

/-- ConfigureAttachments (render_pass_vk.cc:231-289): color attachments
(with resolves), then the depth attachment to depth-attachment-optimal,
then the stencil attachment to stencil-attachment-optimal, each
transitioned and tracked, short-circuiting on failure. -/
def ConfigureAttachments (env : Env) (target : RenderTarget) : Bool × List Op :=
  let c := configureColorAttachments env target.colors
  if c.1 then
    let afterDepth :=
      match target.depth with
      | none => (true, [])
      | some depth =>
        if env.setLayout depth.texture.id then
          if env.track (Res.tex depth.texture.id) then
            (true, [Op.setLayout depth.texture.id Layout.depthAttachmentOptimal,
                    Op.track (Res.tex depth.texture.id)])
          else (false, [Op.setLayout depth.texture.id Layout.depthAttachmentOptimal])
        else (false, [])
    if afterDepth.1 then
      let afterStencil :=
        match target.stencil with
        | none => (true, [])
        | some stencil =>
          if env.setLayout stencil.texture.id then
            if env.track (Res.tex stencil.texture.id) then
              (true, [Op.setLayout stencil.texture.id Layout.stencilAttachmentOptimal,
                      Op.track (Res.tex stencil.texture.id)])
            else (false, [Op.setLayout stencil.texture.id Layout.stencilAttachmentOptimal])
          else (false, [])
      (afterStencil.1, c.2 ++ afterDepth.2 ++ afterStencil.2)
    else (false, c.2 ++ afterDepth.2)
  else (false, c.2)

/-- The bind_buffers lambda of AllocateAndBindDescriptorSets
(render_pass_vk.cc:383-431): for each buffer binding, resolve the view to
a device allocation (failure if absent) and a non-null vk::Buffer handle
(failure if null), skip the reserved per-vertex-data slot, track the
allocation (failure aborts), and batch a uniform-buffer write at the
uniform's declared binding.  Returns success, the encoder-call trace and
the batched writes. -/
def bindBuffers (env : Env) (descSet : Nat) (bindings : Bindings) :
    List (Nat × BufferView) → Bool × List Op × List DescWrite
  | [] => (true, [], [])
  | (buffer_index, view) :: rest =>
    match env.getDeviceBuffer view.buffer with
    | none => (false, [], [])
    | some device_buffer =>
      if env.getBuffer device_buffer == 0 then (false, [], [])
      else if buffer_index == kReservedVertexBufferIndex then
        bindBuffers env descSet bindings rest
      else if env.track (Res.buffer device_buffer) then
        let uniform := bindings.uniforms buffer_index
        let r := bindBuffers env descSet bindings rest
        (r.1, Op.track (Res.buffer device_buffer) :: r.2.1,
         DescWrite.bufferWrite descSet uniform.binding (env.getBuffer device_buffer)
           view.offset view.length :: r.2.2)
      else (false, [], [])

/-- The bind_images lambda of AllocateAndBindDescriptorSets
(render_pass_vk.cc:344-381): for each sampler binding, require a texture
binding at the same slot (failure if absent), track the texture then the
sampler (failure aborts), and batch a combined image-sampler write at the
sampled image's declared binding. -/
def bindImages (env : Env) (descSet : Nat) (bindings : Bindings) :
    List (Nat × Sampler) → Bool × List Op × List DescWrite
  | [] => (true, [], [])
  | (index, sampler_handle) :: rest =>
    match bindings.textures.lookup index with
    | none => (false, [], [])
    | some texture =>
      if env.track (Res.tex texture.id) then
        if env.track (Res.sampler sampler_handle.id) then
          let slot := bindings.sampled_images index
          let r := bindImages env descSet bindings rest
          (r.1,
           Op.track (Res.tex texture.id) :: Op.track (Res.sampler sampler_handle.id) :: r.2.1,
           DescWrite.imageWrite descSet slot.binding sampler_handle.id texture.imageView :: r.2.2)
        else (false, [Op.track (Res.tex texture.id)], [])
      else (false, [], [])

/-- AllocateAndBindDescriptorSets (render_pass_vk.cc:328-449): allocate a
descriptor set for the pipeline's layout, bind the vertex buffers, the
fragment buffers and then the fragment images, and only when all three
phases succeed submit the whole write batch to the device in one update
call and bind the descriptor set at set index 0. -/
def AllocateAndBindDescriptorSets (env : Env) (command : Command)
    (pipeline : PipelineVK) : Bool × List Op :=
  match env.allocDescriptorSet pipeline.dsLayout with
  | none => (false, [])
  | some descSet =>
    let bv := bindBuffers env descSet command.vertex_bindings command.vertex_bindings.buffers
    if bv.1 then
      let bf := bindBuffers env descSet command.fragment_bindings command.fragment_bindings.buffers
      if bf.1 then
        let bi := bindImages env descSet command.fragment_bindings command.fragment_bindings.samplers
        if bi.1 then
          (true, bv.2.1 ++ bf.2.1 ++ bi.2.1 ++
            [Op.updateDescriptorSets (bv.2.2 ++ bf.2.2 ++ bi.2.2),
             Op.bindDescriptorSets descSet pipeline.pipelineLayout])
        else (false, bv.2.1 ++ bf.2.1 ++ bi.2.1)
      else (false, bv.2.1 ++ bf.2.1)
    else (false, bv.2.1)

/-- SetViewportAndScissor (render_pass_vk.cc:451-472): the viewport is the
command's explicit viewport if given, else the full target rectangle; the
recorded vk::Viewport keeps the default x, sets y to the rect height and
height to its negation (flipped Y), width to the rect width, and the
depth range to [0,1].  The scissor is the command's explicit scissor if
given, else the full target rectangle. -/
def SetViewportAndScissor (command : Command) (target_size : ISize) :
    VkViewport × VkRect2D :=
  let vp := command.viewport.getD { rect := Rect.MakeSize target_size }
  let viewport : VkViewport :=
    { x := 0
      y := vp.rect.size.height
      width := vp.rect.size.width
      height := -vp.rect.size.height
      minDepth := 0
      maxDepth := 1 }
  let sc := command.scissor.getD (IRect.MakeSize target_size)
  let scissor : VkRect2D :=
    { offsetX := sc.origin.x
      offsetY := sc.origin.y
      extentW := sc.size.width
      extentH := sc.size.height }
  (viewport, scissor)

/-- A debug-label scope around a recorded operation sequence: push the
label when nonempty and pop it after the scoped operations on every exit
path (fml::ScopedCleanupClosure). -/
def wrapOps (label : String) (ops : List Op) : List Op :=
  if label.isEmpty then ops else Op.pushDebugGroup label :: ops ++ [Op.popDebugGroup]

/-- The body of EncodeCommand after the debug-label scope
(render_pass_vk.cc:490-555): bind descriptor sets (failure aborts), bind
the pipeline, set viewport, scissor and stencil reference, require valid
vertex and index buffer views and their device allocations, track both,
bind the vertex and index buffers at their offsets, and issue the indexed
draw with first index and first instance fixed at 0. -/
def encodeCommandBody (env : Env) (command : Command) (pipeline : PipelineVK)
    (target_size : ISize) : Bool × List Op :=
  let ab := AllocateAndBindDescriptorSets env command pipeline
  if ab.1 then
    let vpsc := SetViewportAndScissor command target_size
    let pre := ab.2 ++
      [Op.bindPipeline pipeline.id, Op.setViewport vpsc.1, Op.setScissor vpsc.2,
       Op.setStencilReference command.stencil_reference]
    match command.vertex_buffer, command.index_buffer with
    | some vertex_buffer_view, some index_buffer_view =>
      match env.getDeviceBuffer vertex_buffer_view.buffer,
            env.getDeviceBuffer index_buffer_view.buffer with
      | some vertex_buffer, some index_buffer =>
        if env.track (Res.buffer vertex_buffer) then
          if env.track (Res.buffer index_buffer) then
            (true, pre ++
              [Op.track (Res.buffer vertex_buffer), Op.track (Res.buffer index_buffer),
               Op.bindVertexBuffers (env.getBuffer vertex_buffer) vertex_buffer_view.offset,
               Op.bindIndexBuffer (env.getBuffer index_buffer) index_buffer_view.offset
                 command.index_type,
               Op.drawIndexed command.index_count command.instance_count 0
                 command.base_vertex 0])
          else (false, pre ++ [Op.track (Res.buffer vertex_buffer)])
        else (false, pre)
      | _, _ => (false, pre)
    | _, _ => (false, pre)
  else (false, ab.2)

/-- EncodeCommand (render_pass_vk.cc:474-556): no-op success when the
index count or instance count is zero; otherwise the body runs inside the
command's debug-label scope (pushed only when the label is nonempty, and
then popped on every exit path). -/
def EncodeCommand (env : Env) (command : Command) (pipeline : PipelineVK)
    (target_size : ISize) : Bool × List Op :=
  if command.index_count == 0 || command.instance_count == 0 then (true, [])
  else
    let core := encodeCommandBody env command pipeline target_size
    (core.1, wrapOps command.label core.2)

/-- One iteration of the command loop of OnEncodeCommands
(render_pass_vk.cc:630-638): commands without a pipeline are skipped. -/
def encodeStep (env : Env) (target_size : ISize) (command : Command) : Bool × List Op :=
  match command.pipeline with
  | none => (true, [])
  | some pipeline => EncodeCommand env command pipeline target_size

/-- The command loop of OnEncodeCommands: encode each command in order,
aborting the remaining commands on the first failure. -/
def encodeLoop (env : Env) (target_size : ISize) : List Command → Bool × List Op
  | [] => (true, [])
  | command :: rest =>
    let s := encodeStep env target_size command
    if s.1 then
      let r := encodeLoop env target_size rest
      (r.1, s.2 ++ r.2)
    else (false, s.2)

/-- The state of a RenderPassVK object relevant to OnEncodeCommands:
whether construction succeeded (render pass created), the render target,
the queued commands, the debug label, and whether the weakly-referenced
command encoder is still alive. -/
structure RenderPassVK where
  is_valid : Bool
  render_target : RenderTarget
  commands : List Command
  debug_label : String
  encoder_alive : Bool

/-- The debug-label scope of OnEncodeCommands (render_pass_vk.cc:579-585):
push the pass label when nonempty and pop it on every exit path. -/
def wrapDebugGroup (label : String) (r : Bool × List Op) : Bool × List Op :=
  (r.1, wrapOps label r.2)

/-- The body of OnEncodeCommands after the entry preconditions
(render_pass_vk.cc:587-641): transition every texture bound by every
queued command, transition and track every attachment, succeed early when
there are no commands, otherwise create the framebuffer, track it and the
render pass, begin the render pass with the clear values, run the command
loop, and end the render pass unconditionally once begun. -/
def onEncodeCommandsBody (env : Env) (p : RenderPassVK) : Bool × List Op :=
  let u := UpdateBindingLayouts env p.commands
  if u.1 then
    let ca := ConfigureAttachments env p.render_target
    if ca.1 then
      if p.commands.isEmpty then (true, u.2 ++ ca.2)
      else
        let views := CreateFramebuffer p.render_target
        if env.track Res.framebuffer then
          if env.track Res.renderPass then
            let lp := encodeLoop env p.render_target.size p.commands
            (lp.1, u.2 ++ ca.2 ++
              [Op.createFramebuffer views, Op.track Res.framebuffer,
               Op.track Res.renderPass,
               Op.beginRenderPass (GetVKClearValues p.render_target)] ++
              lp.2 ++ [Op.endRenderPass])
          else (false, u.2 ++ ca.2 ++ [Op.createFramebuffer views, Op.track Res.framebuffer])
        else (false, u.2 ++ ca.2 ++ [Op.createFramebuffer views])
    else (false, u.2 ++ ca.2)
  else (false, u.2)

/-- RenderPassVK::OnEncodeCommands (render_pass_vk.cc:558-642): fail
before recording anything when the pass is invalid, when the render
target has no color attachment at index 0, or when the weakly-referenced
encoder has been torn down; otherwise run the body inside the pass's
debug-label scope. -/
def OnEncodeCommands (env : Env) (p : RenderPassVK) : Bool × List Op :=
  if p.is_valid then
    if p.render_target.HasColorAttachment 0 then
      if p.encoder_alive then
        wrapDebugGroup p.debug_label (onEncodeCommandsBody env p)
      else (false, [])
    else (false, [])
  else (false, [])

/-- The attachment descriptions contributed by the color loop, written as
one flat list: primary description then resolve description (if present)
per color attachment, in bind-index order. -/
def colorDescList (l : List (Nat × ColorAttachment)) : List AttachmentDescription :=
  l.flatMap fun p =>
    CreateAttachmentDescription p.2.toAttachment AttachmentKind.color false ::
      (match p.2.resolve_texture with
       | some _ => [CreateAttachmentDescription p.2.toAttachment AttachmentKind.color true]
       | none => [])

/-- Whether an attachment description is of depth or stencil kind. -/
def nonColorKind (d : AttachmentDescription) : Bool :=
  match d.kind with
  | AttachmentKind.color => false
  | AttachmentKind.depth => true
  | AttachmentKind.stencil => true

/-- The operations a fully successful ConfigureAttachments records for the
color attachments: transition then track, primary then resolve, in
bind-index order. -/
def colorTransitionOps (l : List (Nat × ColorAttachment)) : List Op :=
  l.flatMap fun p =>
    [Op.setLayout p.2.texture.id Layout.colorAttachmentOptimal,
     Op.track (Res.tex p.2.texture.id)] ++
    (match p.2.resolve_texture with
     | some rt => [Op.setLayout rt.id Layout.colorAttachmentOptimal, Op.track (Res.tex rt.id)]
     | none => [])

/-- The operations a fully successful ConfigureAttachments records:
color attachments (with resolves), then depth, then stencil. -/
def attachmentTransitionOps (t : RenderTarget) : List Op :=
  colorTransitionOps t.colors ++
  ((match t.depth with
    | some d => [Op.setLayout d.texture.id Layout.depthAttachmentOptimal,
                 Op.track (Res.tex d.texture.id)]
    | none => []) ++
   (match t.stencil with
    | some s => [Op.setLayout s.texture.id Layout.stencilAttachmentOptimal,
                 Op.track (Res.tex s.texture.id)]
    | none => []))

/-- Whether an operation is a layout transition or a tracking
registration (the only operations an attachment-configuration phase may
record). -/
def isTransitionOp (op : Op) : Bool :=
  match op with
  | Op.setLayout _ _ => true
  | Op.track _ => true
  | _ => false

/-- The descriptor-set writes an operation sequence submits to the device
(the batches of its updateDescriptorSets calls, in order). -/
def submittedWrites (ops : List Op) : List DescWrite :=
  ops.flatMap fun op =>
    match op with
    | Op.updateDescriptorSets ws => ws
    | _ => []

/-- The per-command operation lists of the command loop, for a list of
already-encoded commands. -/
def loopOps (env : Env) (target_size : ISize) (l : List Command) : List Op :=
  l.flatMap fun command => (encodeStep env target_size command).2

/-- Concrete texture fixture. -/
def texF (n : Nat) : Texture :=
  { id := n, format := 10 + n, sampleCount := 1, imageView := 100 + n }

/-- Concrete color attachment fixture (no resolve texture). -/
def colorAttF : ColorAttachment :=
  { texture := texF 1, resolve_texture := none, load_action := LoadAction.clear,
    store_action := StoreAction.store,
    clear_color := { red := 1, green := 0, blue := 0, alpha := 1 } }

/-- Concrete depth attachment fixture. -/
def depthAttF : DepthAttachment :=
  { texture := texF 2, resolve_texture := none, load_action := LoadAction.clear,
    store_action := StoreAction.dontCare, clear_depth := 0 }

/-- Concrete stencil attachment fixture. -/
def stencilAttF : StencilAttachment :=
  { texture := texF 3, resolve_texture := none, load_action := LoadAction.clear,
    store_action := StoreAction.dontCare, clear_stencil := 0 }

/-- A render target carrying a color attachment at index 0, a depth
attachment and a stencil attachment. -/
def targetBothF : RenderTarget :=
  { colors := [(0, colorAttF)], depth := some depthAttF, stencil := some stencilAttF,
    size := { width := 16, height := 32 } }

/-- A render target carrying only a color attachment at index 0. -/
def targetColorF : RenderTarget :=
  { colors := [(0, colorAttF)], depth := none, stencil := none,
    size := { width := 16, height := 32 } }

/-- A render target whose only color attachment sits at bind index 2,
leaving bind indices 0 and 1 unpopulated. -/
def targetGapF : RenderTarget :=
  { colors := [(2, colorAttF)], depth := none, stencil := none,
    size := { width := 16, height := 32 } }

/-- An environment in which every collaborator call succeeds. -/
def envAllF : Env :=
  { setLayout := fun _ => true, track := fun _ => true,
    allocDescriptorSet := fun _ => some 7,
    getDeviceBuffer := fun v => some (v + 50), getBuffer := fun b => b + 500 }

/-- An empty binding table. -/
def noBindingsF : Bindings :=
  { buffers := [], textures := [], samplers := [],
    sampled_images := fun _ => { binding := 0 },
    uniforms := fun _ => { binding := 0 } }

/-- Concrete pipeline fixture. -/
def plF : PipelineVK := { id := 9, dsLayout := 3, pipelineLayout := 4 }

/-- A command that encodes successfully under `envAllF`. -/
def cmdGoodF : Command :=
  { pipeline := some plF, vertex_bindings := noBindingsF, fragment_bindings := noBindingsF,
    vertex_buffer := some { buffer := 1, offset := 0, length := 16 },
    index_buffer := some { buffer := 2, offset := 0, length := 6 },
    index_type := IndexTypeVK.bit16, index_count := 3, instance_count := 1,
    base_vertex := 0, viewport := none, scissor := none, stencil_reference := 0,
    label := "" }

/-- A fragment binding table with a sampler at slot 0 and no texture at
slot 0. -/
def fragNoTexF : Bindings :=
  { buffers := [], textures := [], samplers := [(0, { id := 77 })],
    sampled_images := fun _ => { binding := 0 },
    uniforms := fun _ => { binding := 0 } }

/-- A command whose fragment bindings carry a sampler with no matching
texture, so its resource binding fails. -/
def cmdNoTexF : Command :=
  { cmdGoodF with fragment_bindings := fragNoTexF }

/-- A fragment binding table with a matched texture/sampler pair at
slot 0. -/
def fragPairF : Bindings :=
  { buffers := [], textures := [(0, texF 5)], samplers := [(0, { id := 6 })],
    sampled_images := fun _ => { binding := 8 },
    uniforms := fun _ => { binding := 0 } }

/-- A vertex binding table carrying a texture (and a sampler) that the
binder must ignore. -/
def vertTexF : Bindings :=
  { buffers := [], textures := [(1, texF 7)], samplers := [(1, { id := 9 })],
    sampled_images := fun _ => { binding := 2 },
    uniforms := fun _ => { binding := 0 } }

/-- A command with a texture in both binding tables, only the fragment one
paired for binding. -/
def cmdMixedF : Command :=
  { cmdGoodF with vertex_bindings := vertTexF, fragment_bindings := fragPairF }

/-- A valid pass whose second command fails resource binding. -/
def passFailF : RenderPassVK :=
  { is_valid := true, render_target := targetColorF, commands := [cmdGoodF, cmdNoTexF],
    debug_label := "", encoder_alive := true }

/-- A valid pass with no queued commands. -/
def passEmptyF : RenderPassVK :=
  { is_valid := true, render_target := targetBothF, commands := [],
    debug_label := "", encoder_alive := true }

/-- A pass whose construction failed (render-pass creation rejected). -/
def passInvalidF : RenderPassVK :=
  { is_valid := false, render_target := targetColorF, commands := [],
    debug_label := "", encoder_alive := true }

theorem kind_CreateAttachmentDescription (a : Attachment) (k : AttachmentKind) (r : Bool) :
    (CreateAttachmentDescription a k r).kind = k := rfl

theorem colorAttachmentsFold_descs (l : List (Nat × ColorAttachment))
    (atts : List AttachmentDescription) (crefs rrefs : List AttachmentReference) :
    (colorAttachmentsFold l atts crefs rrefs).1 = atts ++ colorDescList l := by
  induction l generalizing atts crefs rrefs with
  | nil => simp [colorAttachmentsFold, colorDescList]
  | cons hd tl ih =>
    obtain ⟨b, color⟩ := hd
    cases h : color.resolve_texture with
    | none =>
      simp [colorAttachmentsFold, h, ih, colorDescList, List.flatMap_cons]
    | some rt =>
      simp [colorAttachmentsFold, h, ih, colorDescList, List.flatMap_cons]

theorem nonColorKind_color (a : Attachment) (r : Bool) :
    nonColorKind (CreateAttachmentDescription a AttachmentKind.color r) = false := rfl

theorem colorDescList_filter_nonColor (l : List (Nat × ColorAttachment)) :
    (colorDescList l).filter nonColorKind = [] := by
  induction l with
  | nil => rfl
  | cons hd tl ih =>
    have hcons : colorDescList (hd :: tl) =
        (CreateAttachmentDescription hd.2.toAttachment AttachmentKind.color false ::
          (match hd.2.resolve_texture with
           | some _ => [CreateAttachmentDescription hd.2.toAttachment AttachmentKind.color true]
           | none => [])) ++ colorDescList tl := by
      simp [colorDescList, List.flatMap_cons]
    rw [hcons, List.filter_append, ih]
    cases h : hd.2.resolve_texture with
    | none => simp [h, nonColorKind_color]
    | some rt => simp [h, nonColorKind_color]

/-- Claim C6: for every RenderTarget, the Pass Description contains at
most one depth-stencil attachment description: a depth description is
appended when a depth attachment is present, and a stencil description is
appended only when depth is absent and stencil is present. -/
theorem single_depth_stencil_description (t : RenderTarget) :
    ((CreateVKRenderPass t).attachments.filter nonColorKind).length ≤ 1 ∧
    (CreateVKRenderPass t).attachments.filter nonColorKind =
      (match t.depth, t.stencil with
       | some d, _ => [CreateAttachmentDescription d.toAttachment AttachmentKind.depth false]
       | none, some s => [CreateAttachmentDescription s.toAttachment AttachmentKind.stencil false]
       | none, none => []) := by
  have hfold := colorAttachmentsFold_descs t.colors []
    (List.replicate (t.GetMaxColorAttacmentBindIndex + 1) kUnusedAttachmentReference)
    (List.replicate (t.GetMaxColorAttacmentBindIndex + 1) kUnusedAttachmentReference)
  have hfilter := colorDescList_filter_nonColor t.colors
  cases hd : t.depth with
  | some d =>
    constructor
    · simp [CreateVKRenderPass, hd, hfold, List.filter_append, hfilter,
        nonColorKind, kind_CreateAttachmentDescription]
    · simp [CreateVKRenderPass, hd, hfold, List.filter_append, hfilter,
        nonColorKind, kind_CreateAttachmentDescription]
  | none =>
    cases hs : t.stencil with
    | some s =>
      constructor
      · simp [CreateVKRenderPass, hd, hs, hfold, List.filter_append, hfilter,
          nonColorKind, kind_CreateAttachmentDescription]
      · simp [CreateVKRenderPass, hd, hs, hfold, List.filter_append, hfilter,
          nonColorKind, kind_CreateAttachmentDescription]
    | none =>
      constructor
      · simp [CreateVKRenderPass, hd, hs, hfold, List.filter_append, hfilter]
      · simp [CreateVKRenderPass, hd, hs, hfold, List.filter_append, hfilter]

/-- Claim C1 (divergence evaluation): on a render target with a color
attachment, a depth attachment and a stencil attachment, the Pass
Description holds two attachment descriptions (color, then depth — the
stencil description is skipped by the depth-preferred branch) while the
Frame Buffer holds three image views (color, depth, stencil), so the two
sequences are not identical in count. -/
theorem framebuffer_pass_attachment_count_divergence :
    (CreateVKRenderPass targetBothF).attachments.length = 2 ∧
    (CreateFramebuffer targetBothF).length = 3 ∧
    ¬ (CreateVKRenderPass targetBothF).attachments.length =
        (CreateFramebuffer targetBothF).length := by
  refine ⟨by decide, by decide, by decide⟩

theorem clearValuesOfColors_length (l : List (Nat × ColorAttachment)) :
    (clearValuesOfColors l).length =
      l.length + (l.filter fun p => p.2.resolve_texture.isSome).length := by
  induction l with
  | nil => rfl
  | cons hd tl ih =>
    cases h : hd.2.resolve_texture with
    | none =>
      simp [clearValuesOfColors, h, ih]
      omega
    | some rt =>
      simp [clearValuesOfColors, h, ih]
      omega

theorem clearValuesOfColors_eq (l : List (Nat × ColorAttachment)) :
    clearValuesOfColors l =
      l.flatMap fun p =>
        ClearValue.color p.2.clear_color ::
          (match p.2.resolve_texture with
           | some _ => [ClearValue.color p.2.clear_color]
           | none => []) := by
  induction l with
  | nil => rfl
  | cons hd tl ih =>
    cases h : hd.2.resolve_texture with
    | none => simp [clearValuesOfColors, h, ih, List.flatMap_cons]
    | some rt => simp [clearValuesOfColors, h, ih, List.flatMap_cons]

/-- Claim C7: for every RenderTarget, the clear-value list has length
(#color attachments) + (#color attachments with a resolve texture) +
(1 if depth present) + (1 if stencil present), ordered as each color
attachment's clear color in bind order, duplicated immediately for its
resolve if present, then the depth clear value, then the stencil clear
value. -/
theorem clear_values_order_and_count (t : RenderTarget) :
    (GetVKClearValues t).length =
      t.colors.length + (t.colors.filter fun p => p.2.resolve_texture.isSome).length +
      (if t.depth.isSome then 1 else 0) + (if t.stencil.isSome then 1 else 0) ∧
    GetVKClearValues t =
      (t.colors.flatMap fun p =>
        ClearValue.color p.2.clear_color ::
          (match p.2.resolve_texture with
           | some _ => [ClearValue.color p.2.clear_color]
           | none => [])) ++
      ((match t.depth with
        | some d => [ClearValue.depthStencil d.clear_depth 0]
        | none => []) ++
       (match t.stencil with
        | some s => [ClearValue.depthStencil 0 s.clear_stencil]
        | none => [])) := by
  constructor
  · cases hd : t.depth <;> cases hs : t.stencil <;>
      · simp [GetVKClearValues, hd, hs, clearValuesOfColors_length]
        try omega
  · simp [GetVKClearValues, clearValuesOfColors_eq]

/-- Claim C4: the viewport rectangle used is the command's explicit
viewport if given, else the full target rectangle; the recorded device
viewport flips Y (y set to the rect height, height to its negation) with
fixed depth range [0,1]; with no explicit viewport the recorded y is the
target height H and the height is -H, and with no explicit scissor the
scissor is the full target rectangle. -/
theorem viewport_scissor_recording (c : Command) (s : ISize) :
    (SetViewportAndScissor c s).1 =
      { x := 0
        y := (c.viewport.getD { rect := Rect.MakeSize s }).rect.size.height
        width := (c.viewport.getD { rect := Rect.MakeSize s }).rect.size.width
        height := -(c.viewport.getD { rect := Rect.MakeSize s }).rect.size.height
        minDepth := 0
        maxDepth := 1 } ∧
    (SetViewportAndScissor c s).2 =
      { offsetX := (c.scissor.getD (IRect.MakeSize s)).origin.x
        offsetY := (c.scissor.getD (IRect.MakeSize s)).origin.y
        extentW := (c.scissor.getD (IRect.MakeSize s)).size.width
        extentH := (c.scissor.getD (IRect.MakeSize s)).size.height } ∧
    (c.viewport = none →
      (SetViewportAndScissor c s).1.y = s.height ∧
      (SetViewportAndScissor c s).1.height = -s.height ∧
      (SetViewportAndScissor c s).1.width = s.width) ∧
    (c.scissor = none →
      (SetViewportAndScissor c s).2 =
        { offsetX := 0, offsetY := 0, extentW := s.width, extentH := s.height }) := by
  refine ⟨rfl, rfl, ?_, ?_⟩
  · intro h
    simp [SetViewportAndScissor, h, Rect.MakeSize]
  · intro h
    simp [SetViewportAndScissor, h, IRect.MakeSize, Rect.MakeSize]

theorem viewport_scissor_recording_witness :
    (cmdGoodF.viewport = none ∧ cmdGoodF.scissor = none) ∧
    ((SetViewportAndScissor cmdGoodF targetColorF.size).1.y = 32 ∧
     (SetViewportAndScissor cmdGoodF targetColorF.size).1.height = -32 ∧
     (SetViewportAndScissor cmdGoodF targetColorF.size).2 =
       { offsetX := 0, offsetY := 0, extentW := 16, extentH := 32 }) := by
  have h := viewport_scissor_recording cmdGoodF targetColorF.size
  refine ⟨⟨rfl, rfl⟩, ⟨?_, ?_, ?_⟩⟩
  · exact (h.2.2.1 rfl).1
  · exact (h.2.2.1 rfl).2.1
  · exact h.2.2.2 rfl

/-- Claim C8: OnEncodeCommands fails and records nothing (no transition,
no pass begin, no draw) when the pass object is invalid, when the render
target has no color attachment at bind index 0, or when the
weakly-referenced command encoder has been torn down. -/
theorem encode_precondition_failures (env : Env) (p : RenderPassVK)
    (h : p.is_valid = false ∨ p.render_target.HasColorAttachment 0 = false ∨
      p.encoder_alive = false) :
    OnEncodeCommands env p = (false, []) := by
  rcases h with h | h | h
  · simp [OnEncodeCommands, h]
  · cases hv : p.is_valid with
    | false => simp [OnEncodeCommands, hv]
    | true => simp [OnEncodeCommands, hv, h]
  · cases hv : p.is_valid with
    | false => simp [OnEncodeCommands, hv]
    | true =>
      cases hc : p.render_target.HasColorAttachment 0 with
      | false => simp [OnEncodeCommands, hv, hc]
      | true => simp [OnEncodeCommands, hv, hc, h]

theorem encode_precondition_failures_witness :
    passInvalidF.is_valid = false ∧
    OnEncodeCommands envAllF passInvalidF = (false, []) := by
  refine ⟨rfl, encode_precondition_failures envAllF passInvalidF (Or.inl rfl)⟩

theorem colorAttachmentsFold_refs_length (l : List (Nat × ColorAttachment))
    (atts : List AttachmentDescription) (crefs rrefs : List AttachmentReference) :
    ((colorAttachmentsFold l atts crefs rrefs).2.1).length = crefs.length ∧
    ((colorAttachmentsFold l atts crefs rrefs).2.2).length = rrefs.length := by
  induction l generalizing atts crefs rrefs with
  | nil => simp [colorAttachmentsFold]
  | cons hd tl ih =>
    obtain ⟨b, color⟩ := hd
    cases h : color.resolve_texture with
    | none =>
      simp only [colorAttachmentsFold, h]
      have := ih (atts ++ [CreateAttachmentDescription color.toAttachment AttachmentKind.color false])
        (crefs.set b { attachment := atts.length, layout := Layout.colorAttachmentOptimal }) rrefs
      simpa [List.length_set] using this
    | some rt =>
      simp only [colorAttachmentsFold, h]
      have := ih (atts ++ [CreateAttachmentDescription color.toAttachment AttachmentKind.color false] ++
          [CreateAttachmentDescription color.toAttachment AttachmentKind.color true])
        (crefs.set b { attachment := atts.length, layout := Layout.colorAttachmentOptimal })
        (rrefs.set b
          { attachment := (atts ++ [CreateAttachmentDescription color.toAttachment AttachmentKind.color false]).length,
            layout := Layout.colorAttachmentOptimal })
      simpa [List.length_set] using this

theorem lookup_none_not_mem {α : Type} {l : List (Nat × α)} {j : Nat} {c : α}
    (h : l.lookup j = none) (hm : (j, c) ∈ l) : False := by
  induction l with
  | nil => cases hm
  | cons hd tl ih =>
    obtain ⟨k, v⟩ := hd
    cases hbeq : (j == k) with
    | true =>
      simp [List.lookup, hbeq] at h
    | false =>
      have h' : List.lookup j tl = none := by
        simpa [List.lookup, hbeq] using h
      rcases List.mem_cons.mp hm with he | ht
      · have hjk : j = k := congrArg Prod.fst he
        rw [hjk] at hbeq
        simp at hbeq
      · exact ih h' ht

theorem colorAttachmentsFold_color_ref_unused (l : List (Nat × ColorAttachment))
    (atts : List AttachmentDescription) (crefs rrefs : List AttachmentReference)
    (j : Nat) (hn : ∀ c : ColorAttachment, ¬ ((j, c) ∈ l))
    (hc : crefs[j]? = some kUnusedAttachmentReference) :
    ((colorAttachmentsFold l atts crefs rrefs).2.1)[j]? = some kUnusedAttachmentReference := by
  induction l generalizing atts crefs rrefs with
  | nil => simpa [colorAttachmentsFold] using hc
  | cons hd tl ih =>
    obtain ⟨b, color⟩ := hd
    have hbj : b ≠ j := by
      intro hbj
      exact hn color (by rw [hbj]; exact List.mem_cons_self _ _)
    have hn' : ∀ c : ColorAttachment, ¬ ((j, c) ∈ tl) := by
      intro c hmem
      exact hn c (List.mem_cons_of_mem _ hmem)
    have hset : (crefs.set b
        { attachment := atts.length, layout := Layout.colorAttachmentOptimal })[j]? =
        some kUnusedAttachmentReference := by
      rw [List.getElem?_set_ne hbj]
      exact hc
    cases h : color.resolve_texture with
    | none =>
      simp only [colorAttachmentsFold, h]
      exact ih _ _ _ hn' hset
    | some rt =>
      simp only [colorAttachmentsFold, h]
      exact ih _ _ _ hn' hset

theorem colorAttachmentsFold_resolve_ref_unused (l : List (Nat × ColorAttachment))
    (atts : List AttachmentDescription) (crefs rrefs : List AttachmentReference)
    (j : Nat) (hn : ∀ c : ColorAttachment, (j, c) ∈ l → c.resolve_texture = none)
    (hr : rrefs[j]? = some kUnusedAttachmentReference) :
    ((colorAttachmentsFold l atts crefs rrefs).2.2)[j]? = some kUnusedAttachmentReference := by
  induction l generalizing atts crefs rrefs with
  | nil => simpa [colorAttachmentsFold] using hr
  | cons hd tl ih =>
    obtain ⟨b, color⟩ := hd
    have hn' : ∀ c : ColorAttachment, (j, c) ∈ tl → c.resolve_texture = none := by
      intro c hmem
      exact hn c (List.mem_cons_of_mem _ hmem)
    cases h : color.resolve_texture with
    | none =>
      simp only [colorAttachmentsFold, h]
      exact ih _ _ _ hn' hr
    | some rt =>
      have hbj : b ≠ j := by
        intro hbj
        have := hn color (by rw [hbj]; exact List.mem_cons_self _ _)
        rw [this] at h
        cases h
      simp only [colorAttachmentsFold, h]
      refine ih _ _ _ hn' ?_
      rw [List.getElem?_set_ne hbj]
      exact hr

theorem CreateVKRenderPass_refs (t : RenderTarget) :
    (CreateVKRenderPass t).color_refs =
      (colorAttachmentsFold t.colors []
        (List.replicate (t.GetMaxColorAttacmentBindIndex + 1) kUnusedAttachmentReference)
        (List.replicate (t.GetMaxColorAttacmentBindIndex + 1) kUnusedAttachmentReference)).2.1 ∧
    (CreateVKRenderPass t).resolve_refs =
      (colorAttachmentsFold t.colors []
        (List.replicate (t.GetMaxColorAttacmentBindIndex + 1) kUnusedAttachmentReference)
        (List.replicate (t.GetMaxColorAttacmentBindIndex + 1) kUnusedAttachmentReference)).2.2 := by
  cases hd : t.depth with
  | some d => exact ⟨by simp [CreateVKRenderPass, hd], by simp [CreateVKRenderPass, hd]⟩
  | none =>
    cases hs : t.stencil with
    | some s =>
      exact ⟨by simp [CreateVKRenderPass, hd, hs], by simp [CreateVKRenderPass, hd, hs]⟩
    | none =>
      exact ⟨by simp [CreateVKRenderPass, hd, hs], by simp [CreateVKRenderPass, hd, hs]⟩

/-- Claim C9: for every RenderTarget with maximum color bind index N, the
subpass color and resolve reference arrays each have exactly N+1 slots;
a slot at a bind index with no populated color attachment holds the
unused sentinel, and a resolve slot at a bind index whose color
attachment (if any) has no resolve texture holds the unused sentinel. -/
theorem reference_arrays_sized_and_unused (t : RenderTarget) (j : Nat)
    (hj : j ≤ t.GetMaxColorAttacmentBindIndex) :
    (CreateVKRenderPass t).color_refs.length = t.GetMaxColorAttacmentBindIndex + 1 ∧
    (CreateVKRenderPass t).resolve_refs.length = t.GetMaxColorAttacmentBindIndex + 1 ∧
    (t.colors.lookup j = none →
      (CreateVKRenderPass t).color_refs[j]? = some kUnusedAttachmentReference) ∧
    ((∀ c : ColorAttachment, (j, c) ∈ t.colors → c.resolve_texture = none) →
      (CreateVKRenderPass t).resolve_refs[j]? = some kUnusedAttachmentReference) := by
  obtain ⟨hcr, hrr⟩ := CreateVKRenderPass_refs t
  have hlen := colorAttachmentsFold_refs_length t.colors []
    (List.replicate (t.GetMaxColorAttacmentBindIndex + 1) kUnusedAttachmentReference)
    (List.replicate (t.GetMaxColorAttacmentBindIndex + 1) kUnusedAttachmentReference)
  have hjlt : j < t.GetMaxColorAttacmentBindIndex + 1 := Nat.lt_succ_of_le hj
  have hrep : (List.replicate (t.GetMaxColorAttacmentBindIndex + 1)
      kUnusedAttachmentReference)[j]? = some kUnusedAttachmentReference := by
    simp [List.getElem?_replicate, hjlt]
  refine ⟨?_, ?_, ?_, ?_⟩
  · rw [hcr, hlen.1, List.length_replicate]
  · rw [hrr, hlen.2, List.length_replicate]
  · intro hnone
    rw [hcr]
    refine colorAttachmentsFold_color_ref_unused _ _ _ _ _ ?_ hrep
    intro c hmem
    exact lookup_none_not_mem hnone hmem
  · intro hnores
    rw [hrr]
    exact colorAttachmentsFold_resolve_ref_unused _ _ _ _ _ hnores hrep

theorem reference_arrays_sized_and_unused_witness :
    (1 ≤ targetGapF.GetMaxColorAttacmentBindIndex ∧
     targetGapF.colors.lookup 1 = none) ∧
    ((CreateVKRenderPass targetGapF).color_refs.length = 3 ∧
     (CreateVKRenderPass targetGapF).color_refs[1]? = some kUnusedAttachmentReference ∧
     (CreateVKRenderPass targetGapF).resolve_refs[1]? = some kUnusedAttachmentReference) := by
  have h := reference_arrays_sized_and_unused targetGapF 1 (by decide)
  refine ⟨⟨by decide, rfl⟩, ⟨h.1, h.2.2.1 rfl, h.2.2.2 ?_⟩⟩
  intro c hmem
  have : c = colorAttF := by
    rcases List.mem_cons.mp hmem with he | ht
    · exact congrArg Prod.snd he
    · cases ht
  rw [this]
  rfl

theorem configureColorAttachments_success (env : Env) (l : List (Nat × ColorAttachment))
    (h : (configureColorAttachments env l).1 = true) :
    (configureColorAttachments env l).2 = colorTransitionOps l := by
  induction l with
  | nil => rfl
  | cons hd tl ih =>
    obtain ⟨b, color⟩ := hd
    cases hsl : env.setLayout color.texture.id with
    | false => simp [configureColorAttachments, hsl] at h
    | true =>
      cases htr : env.track (Res.tex color.texture.id) with
      | false => simp [configureColorAttachments, hsl, htr] at h
      | true =>
        cases hres : color.resolve_texture with
        | none =>
          simp only [configureColorAttachments, hsl, htr, hres, if_true] at h ⊢
          simp only [colorTransitionOps, List.flatMap_cons, hres]
          simp at h ⊢
          rw [ih h]
          rfl
        | some rt =>
          cases hsl2 : env.setLayout rt.id with
          | false => simp [configureColorAttachments, hsl, htr, hres, hsl2] at h
          | true =>
            cases htr2 : env.track (Res.tex rt.id) with
            | false => simp [configureColorAttachments, hsl, htr, hres, hsl2, htr2] at h
            | true =>
              simp only [configureColorAttachments, hsl, htr, hres, hsl2, htr2, if_true] at h ⊢
              simp only [colorTransitionOps, List.flatMap_cons, hres]
              simp at h ⊢
              rw [ih h]
              simp [colorTransitionOps]

theorem ConfigureAttachments_success (env : Env) (t : RenderTarget)
    (h : (ConfigureAttachments env t).1 = true) :
    (ConfigureAttachments env t).2 = attachmentTransitionOps t := by
  cases hc : (configureColorAttachments env t.colors).1 with
  | false => simp [ConfigureAttachments, hc] at h
  | true =>
    have hcops := configureColorAttachments_success env t.colors hc
    cases hd : t.depth with
    | none =>
      cases hs : t.stencil with
      | none =>
        simp [ConfigureAttachments, hc, hd, hs, attachmentTransitionOps, hcops]
      | some s =>
        cases hsl : env.setLayout s.texture.id with
        | false => simp [ConfigureAttachments, hc, hd, hs, hsl] at h
        | true =>
          cases htr : env.track (Res.tex s.texture.id) with
          | false => simp [ConfigureAttachments, hc, hd, hs, hsl, htr] at h
          | true =>
            simp [ConfigureAttachments, hc, hd, hs, hsl, htr, attachmentTransitionOps, hcops]
    | some d =>
      cases hsl : env.setLayout d.texture.id with
      | false => simp [ConfigureAttachments, hc, hd, hsl] at h
      | true =>
        cases htr : env.track (Res.tex d.texture.id) with
        | false => simp [ConfigureAttachments, hc, hd, hsl, htr] at h
        | true =>
          cases hs : t.stencil with
          | none =>
            simp [ConfigureAttachments, hc, hd, hs, hsl, htr, attachmentTransitionOps, hcops]
          | some s =>
            cases hsl2 : env.setLayout s.texture.id with
            | false => simp [ConfigureAttachments, hc, hd, hs, hsl, htr, hsl2] at h
            | true =>
              cases htr2 : env.track (Res.tex s.texture.id) with
              | false => simp [ConfigureAttachments, hc, hd, hs, hsl, htr, hsl2, htr2] at h
              | true =>
                simp [ConfigureAttachments, hc, hd, hs, hsl, htr, hsl2, htr2,
                  attachmentTransitionOps, hcops]

theorem mem_wrapOps (label : String) (ops : List Op) (x : Op) (h : x ∈ ops) :
    x ∈ wrapOps label ops := by
  cases he : label.isEmpty with
  | true => simpa [wrapOps, he] using h
  | false =>
    simp only [wrapOps, he, Bool.false_eq_true, if_false]
    exact List.mem_cons_of_mem _ (List.mem_append_left _ h)

theorem wrapOps_elements (label : String) (ops : List Op) (x : Op)
    (h : x ∈ wrapOps label ops) :
    x ∈ ops ∨ x = Op.pushDebugGroup label ∨ x = Op.popDebugGroup := by
  cases he : label.isEmpty with
  | true =>
    rw [wrapOps, he] at h
    simp at h
    exact Or.inl h
  | false =>
    rw [wrapOps, he] at h
    simp only [Bool.false_eq_true, if_false] at h
    rcases List.mem_cons.mp h with he1 | h2
    · exact Or.inr (Or.inl he1)
    · rcases List.mem_append.mp h2 with h3 | h4
      · exact Or.inl h3
      · simp at h4
        exact Or.inr (Or.inr h4)

theorem colorTransitionOps_mem (l : List (Nat × ColorAttachment)) (bp : Nat)
    (c : ColorAttachment) (h : (bp, c) ∈ l) :
    Op.setLayout c.texture.id Layout.colorAttachmentOptimal ∈ colorTransitionOps l ∧
    (∀ rt, c.resolve_texture = some rt →
      Op.setLayout rt.id Layout.colorAttachmentOptimal ∈ colorTransitionOps l) := by
  constructor
  · refine List.mem_flatMap.mpr ⟨(bp, c), h, ?_⟩
    exact List.mem_cons_self _ _
  · intro rt hrt
    refine List.mem_flatMap.mpr ⟨(bp, c), h, ?_⟩
    simp [hrt]

theorem colorTransitionOps_shape (l : List (Nat × ColorAttachment)) (op : Op)
    (h : op ∈ colorTransitionOps l) : isTransitionOp op = true := by
  rcases List.mem_flatMap.mp h with ⟨p, _, hp⟩
  rcases List.mem_append.mp hp with h1 | h2
  · rcases List.mem_cons.mp h1 with he | h1'
    · rw [he]; rfl
    · simp at h1'
      rw [h1']; rfl
  · cases hres : p.2.resolve_texture with
    | none => rw [hres] at h2; cases h2
    | some rt =>
      rw [hres] at h2
      rcases List.mem_cons.mp h2 with he | h2'
      · rw [he]; rfl
      · simp at h2'
        rw [h2']; rfl

theorem attachmentTransitionOps_shape (t : RenderTarget) (op : Op)
    (h : op ∈ attachmentTransitionOps t) : isTransitionOp op = true := by
  rcases List.mem_append.mp h with h1 | h23
  · exact colorTransitionOps_shape t.colors op h1
  · rcases List.mem_append.mp h23 with h2 | h3
    · cases hd : t.depth with
      | none => rw [hd] at h2; cases h2
      | some d =>
        rw [hd] at h2
        rcases List.mem_cons.mp h2 with he | h2'
        · rw [he]; rfl
        · simp at h2'
          rw [h2']; rfl
    · cases hs : t.stencil with
      | none => rw [hs] at h3; cases h3
      | some s =>
        rw [hs] at h3
        rcases List.mem_cons.mp h3 with he | h3'
        · rw [he]; rfl
        · simp at h3'
          rw [h3']; rfl

/-- Claim C5: for every valid pass with an empty command list, a color
attachment at index 0 and a live encoder, whose attachment transitions
succeed, OnEncodeCommands returns success and records exactly the layout
transitions (and tracking registrations) of every attachment resource —
color, resolve, depth and stencil — inside the debug-label scope, and
records no framebuffer creation, no render-pass begin and no draw. -/
theorem empty_encode_transitions_and_succeeds (env : Env) (p : RenderPassVK)
    (hv : p.is_valid = true)
    (hc0 : p.render_target.HasColorAttachment 0 = true)
    (ha : p.encoder_alive = true)
    (hcmds : p.commands = [])
    (hca : (ConfigureAttachments env p.render_target).1 = true) :
    (OnEncodeCommands env p).1 = true ∧
    (OnEncodeCommands env p).2 = wrapOps p.debug_label (attachmentTransitionOps p.render_target) ∧
    (∀ bp c, (bp, c) ∈ p.render_target.colors →
      Op.setLayout c.texture.id Layout.colorAttachmentOptimal ∈ (OnEncodeCommands env p).2 ∧
      (∀ rt, c.resolve_texture = some rt →
        Op.setLayout rt.id Layout.colorAttachmentOptimal ∈ (OnEncodeCommands env p).2)) ∧
    (∀ d, p.render_target.depth = some d →
      Op.setLayout d.texture.id Layout.depthAttachmentOptimal ∈ (OnEncodeCommands env p).2) ∧
    (∀ s, p.render_target.stencil = some s →
      Op.setLayout s.texture.id Layout.stencilAttachmentOptimal ∈ (OnEncodeCommands env p).2) ∧
    (∀ op ∈ (OnEncodeCommands env p).2,
      isTransitionOp op = true ∨ op = Op.pushDebugGroup p.debug_label ∨ op = Op.popDebugGroup) := by
  have hbody : onEncodeCommandsBody env p = (true, attachmentTransitionOps p.render_target) := by
    have hu : UpdateBindingLayouts env ([] : List Command) = (true, []) := rfl
    have hops := ConfigureAttachments_success env p.render_target hca
    simp [onEncodeCommandsBody, hcmds, hu, hca, hops]
  have hmain : OnEncodeCommands env p =
      (true, wrapOps p.debug_label (attachmentTransitionOps p.render_target)) := by
    simp [OnEncodeCommands, hv, hc0, ha, wrapDebugGroup, hbody]
  refine ⟨by rw [hmain], by rw [hmain], ?_, ?_, ?_, ?_⟩
  · intro bp c hmem
    have hcm := colorTransitionOps_mem p.render_target.colors bp c hmem
    constructor
    · rw [hmain]
      exact mem_wrapOps _ _ _ (List.mem_append_left _ hcm.1)
    · intro rt hrt
      rw [hmain]
      exact mem_wrapOps _ _ _ (List.mem_append_left _ (hcm.2 rt hrt))
  · intro d hd
    rw [hmain]
    refine mem_wrapOps _ _ _ (List.mem_append_right _ (List.mem_append_left _ ?_))
    rw [hd]
    exact List.mem_cons_self _ _
  · intro s hs
    rw [hmain]
    refine mem_wrapOps _ _ _ (List.mem_append_right _ (List.mem_append_right _ ?_))
    rw [hs]
    exact List.mem_cons_self _ _
  · intro op hop
    rw [hmain] at hop
    rcases wrapOps_elements _ _ _ hop with h1 | h2
    · exact Or.inl (attachmentTransitionOps_shape _ _ h1)
    · exact Or.inr h2

theorem empty_encode_transitions_and_succeeds_witness :
    (passEmptyF.is_valid = true ∧
     passEmptyF.render_target.HasColorAttachment 0 = true ∧
     passEmptyF.encoder_alive = true ∧
     passEmptyF.commands = [] ∧
     (ConfigureAttachments envAllF passEmptyF.render_target).1 = true) ∧
    ((OnEncodeCommands envAllF passEmptyF).1 = true ∧
     Op.setLayout (texF 2).id Layout.depthAttachmentOptimal ∈
       (OnEncodeCommands envAllF passEmptyF).2 ∧
     Op.setLayout (texF 3).id Layout.stencilAttachmentOptimal ∈
       (OnEncodeCommands envAllF passEmptyF).2) := by
  have h := empty_encode_transitions_and_succeeds envAllF passEmptyF rfl (by decide) rfl rfl
    (by decide)
  exact ⟨⟨rfl, by decide, rfl, rfl, by decide⟩,
    ⟨h.1, h.2.2.2.1 depthAttF rfl, h.2.2.2.2.1 stencilAttF rfl⟩⟩

theorem onEncodeCommandsBody_commands (env : Env) (p : RenderPassVK)
    (hu : (UpdateBindingLayouts env p.commands).1 = true)
    (hca : (ConfigureAttachments env p.render_target).1 = true)
    (hne : p.commands.isEmpty = false)
    (htf : env.track Res.framebuffer = true)
    (htr : env.track Res.renderPass = true) :
    onEncodeCommandsBody env p =
      ((encodeLoop env p.render_target.size p.commands).1,
       (UpdateBindingLayouts env p.commands).2 ++ (ConfigureAttachments env p.render_target).2 ++
       ([Op.createFramebuffer (CreateFramebuffer p.render_target), Op.track Res.framebuffer,
         Op.track Res.renderPass, Op.beginRenderPass (GetVKClearValues p.render_target)] ++
        (encodeLoop env p.render_target.size p.commands).2 ++ [Op.endRenderPass])) := by
  simp [onEncodeCommandsBody, hu, hca, hne, htf, htr]

theorem encodeLoop_append_fail (env : Env) (sz : ISize) (done : List Command)
    (c : Command) (rest : List Command)
    (hdone : ∀ d ∈ done, (encodeStep env sz d).1 = true)
    (hfail : (encodeStep env sz c).1 = false) :
    encodeLoop env sz (done ++ c :: rest) =
      (false, loopOps env sz done ++ (encodeStep env sz c).2) := by
  induction done with
  | nil => simp [encodeLoop, hfail, loopOps]
  | cons d ds ih =>
    have hd := hdone d (List.mem_cons_self _ _)
    have hds : ∀ x ∈ ds, (encodeStep env sz x).1 = true :=
      fun x hx => hdone x (List.mem_cons_of_mem _ hx)
    have hih := ih hds
    simp only [List.cons_append, encodeLoop, hd, if_true, List.append_eq]
    rw [hih]
    simp [loopOps, List.flatMap_cons, List.append_assoc]

/-- Claim C2: for every encode in which some queued command fails after
the render pass has been begun (entry preconditions hold, transitions and
tracking succeed, the commands before the failing one encode
successfully), OnEncodeCommands returns failure, the render pass is
nevertheless ended on the recording buffer, and the operations recorded
for the earlier successful commands remain in the buffer, verbatim and in
order, before the failing command's operations. -/
theorem encode_command_failure_ends_pass (env : Env) (p : RenderPassVK)
    (done : List Command) (c : Command) (rest : List Command)
    (hv : p.is_valid = true)
    (hc0 : p.render_target.HasColorAttachment 0 = true)
    (ha : p.encoder_alive = true)
    (hsplit : p.commands = done ++ c :: rest)
    (hu : (UpdateBindingLayouts env p.commands).1 = true)
    (hca : (ConfigureAttachments env p.render_target).1 = true)
    (htf : env.track Res.framebuffer = true)
    (htr : env.track Res.renderPass = true)
    (hdone : ∀ d ∈ done, (encodeStep env p.render_target.size d).1 = true)
    (hfail : (encodeStep env p.render_target.size c).1 = false) :
    OnEncodeCommands env p =
      (false,
       wrapOps p.debug_label
         ((UpdateBindingLayouts env p.commands).2 ++
          (ConfigureAttachments env p.render_target).2 ++
          ([Op.createFramebuffer (CreateFramebuffer p.render_target), Op.track Res.framebuffer,
            Op.track Res.renderPass, Op.beginRenderPass (GetVKClearValues p.render_target)] ++
           (loopOps env p.render_target.size done ++
            (encodeStep env p.render_target.size c).2 ++ [Op.endRenderPass])))) ∧
    Op.endRenderPass ∈ (OnEncodeCommands env p).2 := by
  have hne : p.commands.isEmpty = false := by
    rw [hsplit]
    cases done <;> rfl
  have hloop : encodeLoop env p.render_target.size p.commands =
      (false, loopOps env p.render_target.size done ++
        (encodeStep env p.render_target.size c).2) := by
    rw [hsplit]
    exact encodeLoop_append_fail env _ done c rest hdone hfail
  have hbody := onEncodeCommandsBody_commands env p hu hca hne htf htr
  rw [hloop] at hbody
  have hmain : OnEncodeCommands env p =
      (false,
       wrapOps p.debug_label
         ((UpdateBindingLayouts env p.commands).2 ++
          (ConfigureAttachments env p.render_target).2 ++
          ([Op.createFramebuffer (CreateFramebuffer p.render_target), Op.track Res.framebuffer,
            Op.track Res.renderPass, Op.beginRenderPass (GetVKClearValues p.render_target)] ++
           (loopOps env p.render_target.size done ++
            (encodeStep env p.render_target.size c).2 ++ [Op.endRenderPass])))) := by
    simp only [OnEncodeCommands, hv, hc0, ha, if_true, wrapDebugGroup, hbody]
    simp [List.append_assoc]
  refine ⟨hmain, ?_⟩
  rw [hmain]
  refine mem_wrapOps _ _ _ ?_
  refine List.mem_append_right _ (List.mem_append_right _ ?_)
  refine List.mem_append_right _ ?_
  simp

theorem encode_command_failure_ends_pass_witness :
    (passFailF.is_valid = true ∧
     passFailF.render_target.HasColorAttachment 0 = true ∧
     passFailF.encoder_alive = true ∧
     passFailF.commands = [cmdGoodF] ++ cmdNoTexF :: [] ∧
     (UpdateBindingLayouts envAllF passFailF.commands).1 = true ∧
     (ConfigureAttachments envAllF passFailF.render_target).1 = true ∧
     envAllF.track Res.framebuffer = true ∧
     envAllF.track Res.renderPass = true ∧
     (∀ d ∈ [cmdGoodF], (encodeStep envAllF passFailF.render_target.size d).1 = true) ∧
     (encodeStep envAllF passFailF.render_target.size cmdNoTexF).1 = false) ∧
    ((OnEncodeCommands envAllF passFailF).1 = false ∧
     Op.endRenderPass ∈ (OnEncodeCommands envAllF passFailF).2) := by
  have h := encode_command_failure_ends_pass envAllF passFailF [cmdGoodF] cmdNoTexF []
    rfl (by decide) rfl rfl (by decide) (by decide) rfl rfl (by decide) (by decide)
  refine ⟨⟨rfl, by decide, rfl, rfl, by decide, by decide, rfl, rfl, by decide, by decide⟩, ?_, h.2⟩
  rw [h.1]

theorem bindBuffers_ops_shape (env : Env) (descSet : Nat) (bindings : Bindings)
    (l : List (Nat × BufferView)) (op : Op)
    (h : op ∈ (bindBuffers env descSet bindings l).2.1) :
    ∃ bid, op = Op.track (Res.buffer bid) := by
  induction l with
  | nil => cases h
  | cons hd tl ih =>
    obtain ⟨bi, view⟩ := hd
    cases hdb : env.getDeviceBuffer view.buffer with
    | none =>
      rw [bindBuffers, hdb] at h
      cases h
    | some db =>
      by_cases hz : env.getBuffer db == 0
      · rw [bindBuffers, hdb] at h
        simp only [hz, if_true] at h
        cases h
      · by_cases hres : bi == kReservedVertexBufferIndex
        · rw [bindBuffers, hdb] at h
          simp only [hz, hres, Bool.false_eq_true, if_false, if_true] at h
          exact ih h
        · cases htr : env.track (Res.buffer db) with
          | false =>
            rw [bindBuffers, hdb] at h
            simp only [hz, hres, htr, Bool.false_eq_true, if_false] at h
            cases h
          | true =>
            rw [bindBuffers, hdb] at h
            simp only [hz, hres, htr, Bool.false_eq_true, if_false, if_true] at h
            rcases List.mem_cons.mp h with he | ht
            · exact ⟨db, he⟩
            · exact ih ht

theorem bindBuffers_writes_shape (env : Env) (descSet : Nat) (bindings : Bindings)
    (l : List (Nat × BufferView)) (w : DescWrite)
    (h : w ∈ (bindBuffers env descSet bindings l).2.2) :
    ∃ a b c d e, w = DescWrite.bufferWrite a b c d e := by
  induction l with
  | nil => cases h
  | cons hd tl ih =>
    obtain ⟨bi, view⟩ := hd
    cases hdb : env.getDeviceBuffer view.buffer with
    | none =>
      rw [bindBuffers, hdb] at h
      cases h
    | some db =>
      by_cases hz : env.getBuffer db == 0
      · rw [bindBuffers, hdb] at h
        simp only [hz, if_true] at h
        cases h
      · by_cases hres : bi == kReservedVertexBufferIndex
        · rw [bindBuffers, hdb] at h
          simp only [hz, hres, Bool.false_eq_true, if_false, if_true] at h
          exact ih h
        · cases htr : env.track (Res.buffer db) with
          | false =>
            rw [bindBuffers, hdb] at h
            simp only [hz, hres, htr, Bool.false_eq_true, if_false] at h
            cases h
          | true =>
            rw [bindBuffers, hdb] at h
            simp only [hz, hres, htr, Bool.false_eq_true, if_false, if_true] at h
            rcases List.mem_cons.mp h with he | ht
            · exact ⟨descSet, (bindings.uniforms bi).binding, env.getBuffer db,
                view.offset, view.length, he⟩
            · exact ih ht

theorem bindImages_ops_shape (env : Env) (descSet : Nat) (bindings : Bindings)
    (l : List (Nat × Sampler)) (op : Op)
    (h : op ∈ (bindImages env descSet bindings l).2.1) :
    ∃ idx s tex, (idx, s) ∈ l ∧ bindings.textures.lookup idx = some tex ∧
      (op = Op.track (Res.tex tex.id) ∨ op = Op.track (Res.sampler s.id)) := by
  induction l with
  | nil => cases h
  | cons hd tl ih =>
    obtain ⟨idx, s⟩ := hd
    cases hlk : bindings.textures.lookup idx with
    | none =>
      rw [bindImages, hlk] at h
      cases h
    | some tex =>
      cases htr1 : env.track (Res.tex tex.id) with
      | false =>
        rw [bindImages, hlk] at h
        simp only [htr1, Bool.false_eq_true, if_false] at h
        cases h
      | true =>
        cases htr2 : env.track (Res.sampler s.id) with
        | false =>
          rw [bindImages, hlk] at h
          simp only [htr1, htr2, Bool.false_eq_true, if_false, if_true] at h
          rcases List.mem_cons.mp h with he | ht
          · exact ⟨idx, s, tex, List.mem_cons_self _ _, hlk, Or.inl he⟩
          · cases ht
        | true =>
          rw [bindImages, hlk] at h
          simp only [htr1, htr2, if_true] at h
          rcases List.mem_cons.mp h with he | ht
          · exact ⟨idx, s, tex, List.mem_cons_self _ _, hlk, Or.inl he⟩
          · rcases List.mem_cons.mp ht with he2 | ht2
            · exact ⟨idx, s, tex, List.mem_cons_self _ _, hlk, Or.inr he2⟩
            · obtain ⟨idx', s', tex', hm', hlk', hor'⟩ := ih ht2
              exact ⟨idx', s', tex', List.mem_cons_of_mem _ hm', hlk', hor'⟩

theorem bindImages_writes_shape (env : Env) (descSet : Nat) (bindings : Bindings)
    (l : List (Nat × Sampler)) (w : DescWrite)
    (h : w ∈ (bindImages env descSet bindings l).2.2) :
    ∃ idx s tex, (idx, s) ∈ l ∧ bindings.textures.lookup idx = some tex ∧
      w = DescWrite.imageWrite descSet (bindings.sampled_images idx).binding s.id
        tex.imageView := by
  induction l with
  | nil => cases h
  | cons hd tl ih =>
    obtain ⟨idx, s⟩ := hd
    cases hlk : bindings.textures.lookup idx with
    | none =>
      rw [bindImages, hlk] at h
      cases h
    | some tex =>
      cases htr1 : env.track (Res.tex tex.id) with
      | false =>
        rw [bindImages, hlk] at h
        simp only [htr1, Bool.false_eq_true, if_false] at h
        cases h
      | true =>
        cases htr2 : env.track (Res.sampler s.id) with
        | false =>
          rw [bindImages, hlk] at h
          simp only [htr1, htr2, Bool.false_eq_true, if_false, if_true] at h
          cases h
        | true =>
          rw [bindImages, hlk] at h
          simp only [htr1, htr2, if_true] at h
          rcases List.mem_cons.mp h with he | ht
          · exact ⟨idx, s, tex, List.mem_cons_self _ _, hlk, he⟩
          · obtain ⟨idx', s', tex', hm', hlk', he'⟩ := ih ht
            exact ⟨idx', s', tex', List.mem_cons_of_mem _ hm', hlk', he'⟩

theorem bindImages_fails (env : Env) (descSet : Nat) (bindings : Bindings)
    (l : List (Nat × Sampler)) (i : Nat) (s : Sampler)
    (hmem : (i, s) ∈ l) (hno : bindings.textures.lookup i = none) :
    (bindImages env descSet bindings l).1 = false := by
  induction l with
  | nil => cases hmem
  | cons hd tl ih =>
    obtain ⟨idx, s'⟩ := hd
    cases hlk : bindings.textures.lookup idx with
    | none => rw [bindImages, hlk]
    | some tex =>
      have hne : ¬ ((i, s) = (idx, s')) := by
        intro he
        have : i = idx := congrArg Prod.fst he
        rw [this, hlk] at hno
        cases hno
      have hmem' : (i, s) ∈ tl := by
        rcases List.mem_cons.mp hmem with he | ht
        · exact absurd he hne
        · exact ht
      cases htr1 : env.track (Res.tex tex.id) with
      | false => rw [bindImages, hlk]; simp [htr1]
      | true =>
        cases htr2 : env.track (Res.sampler s'.id) with
        | false => rw [bindImages, hlk]; simp [htr1, htr2]
        | true =>
          rw [bindImages, hlk]
          simp only [htr1, htr2, if_true]
          exact ih hmem'

theorem submittedWrites_append (l1 l2 : List Op) :
    submittedWrites (l1 ++ l2) = submittedWrites l1 ++ submittedWrites l2 := by
  simp [submittedWrites]

theorem submittedWrites_track_only (l : List Op)
    (h : ∀ op ∈ l, ∃ r, op = Op.track r) : submittedWrites l = [] := by
  induction l with
  | nil => rfl
  | cons hd tl ih =>
    obtain ⟨r, hr⟩ := h hd (List.mem_cons_self _ _)
    have htl : ∀ op ∈ tl, ∃ r, op = Op.track r :=
      fun op hop => h op (List.mem_cons_of_mem _ hop)
    rw [hr]
    simpa [submittedWrites] using ih htl

/-- Claim C3: for every command whose bindings contain a sampler at a slot
with no texture binding at the same slot, binding that command fails, and
no descriptor-set write from that command's binding attempt is ever
submitted to the device (the write batch only reaches the device after
every buffer and image binding of the command succeeded). -/
theorem sampler_without_texture_fails_without_device_writes (env : Env)
    (command : Command) (pipeline : PipelineVK) (i : Nat) (s : Sampler)
    (hmem : (i, s) ∈ command.fragment_bindings.samplers)
    (hno : command.fragment_bindings.textures.lookup i = none) :
    (AllocateAndBindDescriptorSets env command pipeline).1 = false ∧
    ∀ ws, Op.updateDescriptorSets ws ∉
      (AllocateAndBindDescriptorSets env command pipeline).2 := by
  cases halloc : env.allocDescriptorSet pipeline.dsLayout with
  | none =>
    constructor
    · simp [AllocateAndBindDescriptorSets, halloc]
    · intro ws hin
      rw [AllocateAndBindDescriptorSets, halloc] at hin
      cases hin
  | some descSet =>
    have himg := bindImages_fails env descSet command.fragment_bindings
      command.fragment_bindings.samplers i s hmem hno
    cases hbv : (bindBuffers env descSet command.vertex_bindings
        command.vertex_bindings.buffers).1 with
    | false =>
      constructor
      · simp [AllocateAndBindDescriptorSets, halloc, hbv]
      · intro ws hin
        rw [AllocateAndBindDescriptorSets, halloc] at hin
        simp only [hbv, Bool.false_eq_true, if_false] at hin
        obtain ⟨r, hr⟩ := bindBuffers_ops_shape env descSet command.vertex_bindings
          command.vertex_bindings.buffers _ hin
        simp at hr
    | true =>
      cases hbf : (bindBuffers env descSet command.fragment_bindings
          command.fragment_bindings.buffers).1 with
      | false =>
        constructor
        · simp [AllocateAndBindDescriptorSets, halloc, hbv, hbf]
        · intro ws hin
          rw [AllocateAndBindDescriptorSets, halloc] at hin
          simp only [hbv, hbf, Bool.false_eq_true, if_false, if_true] at hin
          rcases List.mem_append.mp hin with h1 | h2
          · obtain ⟨r, hr⟩ := bindBuffers_ops_shape env descSet command.vertex_bindings
              command.vertex_bindings.buffers _ h1
            simp at hr
          · obtain ⟨r, hr⟩ := bindBuffers_ops_shape env descSet command.fragment_bindings
              command.fragment_bindings.buffers _ h2
            simp at hr
      | true =>
        constructor
        · simp [AllocateAndBindDescriptorSets, halloc, hbv, hbf, himg]
        · intro ws hin
          rw [AllocateAndBindDescriptorSets, halloc] at hin
          simp only [hbv, hbf, himg, Bool.false_eq_true, if_false, if_true] at hin
          rcases List.mem_append.mp hin with h12 | h3
          · rcases List.mem_append.mp h12 with h1 | h2
            · obtain ⟨r, hr⟩ := bindBuffers_ops_shape env descSet command.vertex_bindings
                command.vertex_bindings.buffers _ h1
              simp at hr
            · obtain ⟨r, hr⟩ := bindBuffers_ops_shape env descSet command.fragment_bindings
                command.fragment_bindings.buffers _ h2
              simp at hr
          · obtain ⟨idx, s', tex, _, _, hor⟩ := bindImages_ops_shape env descSet
              command.fragment_bindings command.fragment_bindings.samplers _ h3
            rcases hor with hr | hr <;> simp at hr

theorem sampler_without_texture_fails_without_device_writes_witness :
    ((0, ({ id := 77 } : Sampler)) ∈ cmdNoTexF.fragment_bindings.samplers ∧
     cmdNoTexF.fragment_bindings.textures.lookup 0 = none) ∧
    ((AllocateAndBindDescriptorSets envAllF cmdNoTexF plF).1 = false ∧
     ∀ ws, Op.updateDescriptorSets ws ∉
       (AllocateAndBindDescriptorSets envAllF cmdNoTexF plF).2) := by
  have h := sampler_without_texture_fails_without_device_writes envAllF cmdNoTexF plF 0
    { id := 77 } (by decide) rfl
  exact ⟨⟨by decide, rfl⟩, h⟩

theorem transitionBindingTextures_success (env : Env) (l : List (Nat × Texture))
    (h : (transitionBindingTextures env l).1 = true) :
    (transitionBindingTextures env l).2 =
      l.map fun q => Op.setLayout q.2.id Layout.shaderReadOnlyOptimal := by
  induction l with
  | nil => rfl
  | cons hd tl ih =>
    obtain ⟨k, tex⟩ := hd
    cases hsl : env.setLayout tex.id with
    | false =>
      rw [transitionBindingTextures, hsl] at h
      simp at h
    | true =>
      rw [transitionBindingTextures, hsl] at h ⊢
      simp only [if_true] at h ⊢
      simp only [List.map_cons, List.cons.injEq]
      refine ⟨?_, ih (by simpa using h)⟩
      trivial

/-- Claim C10: for every command, texture and sampler entries of the
vertex binding table are never written into the descriptor set and never
registered with the tracked-resource set — every submitted combined
image-sampler write and every tracked texture or sampler comes from a
sampler entry of the fragment binding table paired with the fragment
texture at the same slot — even though the shader-read-only layout
transition is applied to the textures of both the vertex and the fragment
binding tables. -/
theorem only_fragment_images_bound (env : Env) (command : Command)
    (pipeline : PipelineVK) (ops : List Op)
    (hok : AllocateAndBindDescriptorSets env command pipeline = (true, ops)) :
    (∀ ds bi si iv, DescWrite.imageWrite ds bi si iv ∈ submittedWrites ops →
      ∃ idx s tex, (idx, s) ∈ command.fragment_bindings.samplers ∧
        command.fragment_bindings.textures.lookup idx = some tex ∧
        si = s.id ∧ iv = tex.imageView ∧
        bi = (command.fragment_bindings.sampled_images idx).binding) ∧
    (∀ tid, Op.track (Res.tex tid) ∈ ops →
      ∃ idx s tex, (idx, s) ∈ command.fragment_bindings.samplers ∧
        command.fragment_bindings.textures.lookup idx = some tex ∧ tid = tex.id) ∧
    (∀ sid, Op.track (Res.sampler sid) ∈ ops →
      ∃ idx s, (idx, s) ∈ command.fragment_bindings.samplers ∧ sid = s.id) ∧
    ((UpdateBindingLayoutsCommand env command).1 = true →
      (UpdateBindingLayoutsCommand env command).2 =
        (command.vertex_bindings.textures ++ command.fragment_bindings.textures).map
          fun q => Op.setLayout q.2.id Layout.shaderReadOnlyOptimal) := by
  cases halloc : env.allocDescriptorSet pipeline.dsLayout with
  | none =>
    rw [AllocateAndBindDescriptorSets, halloc] at hok
    simp at hok
  | some descSet =>
    cases hbv : (bindBuffers env descSet command.vertex_bindings
        command.vertex_bindings.buffers).1 with
    | false =>
      rw [AllocateAndBindDescriptorSets, halloc] at hok
      simp [hbv] at hok
    | true =>
      cases hbf : (bindBuffers env descSet command.fragment_bindings
          command.fragment_bindings.buffers).1 with
      | false =>
        rw [AllocateAndBindDescriptorSets, halloc] at hok
        simp [hbv, hbf] at hok
      | true =>
        cases hbi : (bindImages env descSet command.fragment_bindings
            command.fragment_bindings.samplers).1 with
        | false =>
          rw [AllocateAndBindDescriptorSets, halloc] at hok
          simp [hbv, hbf, hbi] at hok
        | true =>
          have htrv : ∀ op ∈ (bindBuffers env descSet command.vertex_bindings
              command.vertex_bindings.buffers).2.1, ∃ r, op = Op.track r := by
            intro op hop
            obtain ⟨bid, he⟩ := bindBuffers_ops_shape env descSet command.vertex_bindings
              command.vertex_bindings.buffers op hop
            exact ⟨Res.buffer bid, he⟩
          have htrf : ∀ op ∈ (bindBuffers env descSet command.fragment_bindings
              command.fragment_bindings.buffers).2.1, ∃ r, op = Op.track r := by
            intro op hop
            obtain ⟨bid, he⟩ := bindBuffers_ops_shape env descSet command.fragment_bindings
              command.fragment_bindings.buffers op hop
            exact ⟨Res.buffer bid, he⟩
          have htri : ∀ op ∈ (bindImages env descSet command.fragment_bindings
              command.fragment_bindings.samplers).2.1, ∃ r, op = Op.track r := by
            intro op hop
            obtain ⟨idx, s, tex, _, _, hor⟩ := bindImages_ops_shape env descSet
              command.fragment_bindings command.fragment_bindings.samplers op hop
            rcases hor with he | he
            · exact ⟨Res.tex tex.id, he⟩
            · exact ⟨Res.sampler s.id, he⟩
          have hops : ops =
              (bindBuffers env descSet command.vertex_bindings
                command.vertex_bindings.buffers).2.1 ++
              (bindBuffers env descSet command.fragment_bindings
                command.fragment_bindings.buffers).2.1 ++
              (bindImages env descSet command.fragment_bindings
                command.fragment_bindings.samplers).2.1 ++
              [Op.updateDescriptorSets
                ((bindBuffers env descSet command.vertex_bindings
                  command.vertex_bindings.buffers).2.2 ++
                 (bindBuffers env descSet command.fragment_bindings
                   command.fragment_bindings.buffers).2.2 ++
                 (bindImages env descSet command.fragment_bindings
                   command.fragment_bindings.samplers).2.2),
               Op.bindDescriptorSets descSet pipeline.pipelineLayout] := by
            rw [AllocateAndBindDescriptorSets, halloc] at hok
            simp only [hbv, hbf, hbi, if_true, Prod.mk.injEq, true_and] at hok
            exact hok.symm
          have hsw : submittedWrites ops =
              (bindBuffers env descSet command.vertex_bindings
                command.vertex_bindings.buffers).2.2 ++
              (bindBuffers env descSet command.fragment_bindings
                command.fragment_bindings.buffers).2.2 ++
              (bindImages env descSet command.fragment_bindings
                command.fragment_bindings.samplers).2.2 := by
            rw [hops]
            rw [submittedWrites_append, submittedWrites_append, submittedWrites_append]
            rw [submittedWrites_track_only _ htrv, submittedWrites_track_only _ htrf,
              submittedWrites_track_only _ htri]
            simp [submittedWrites]
          refine ⟨?_, ?_, ?_, ?_⟩
          · intro ds bi si iv hin
            rw [hsw] at hin
            rcases List.mem_append.mp hin with h12 | h3
            · rcases List.mem_append.mp h12 with h1 | h2
              · obtain ⟨a, b, c', d, e, he⟩ := bindBuffers_writes_shape env descSet
                  command.vertex_bindings command.vertex_bindings.buffers _ h1
                simp at he
              · obtain ⟨a, b, c', d, e, he⟩ := bindBuffers_writes_shape env descSet
                  command.fragment_bindings command.fragment_bindings.buffers _ h2
                simp at he
            · obtain ⟨idx, s, tex, hm, hlk, he⟩ := bindImages_writes_shape env descSet
                command.fragment_bindings command.fragment_bindings.samplers _ h3
              injection he with h1 h2 h3' h4
              exact ⟨idx, s, tex, hm, hlk, h3', h4, h2⟩
          · intro tid hin
            rw [hops] at hin
            rcases List.mem_append.mp hin with h123 | h4
            · rcases List.mem_append.mp h123 with h12 | h3
              · rcases List.mem_append.mp h12 with h1 | h2
                · obtain ⟨bid, he⟩ := bindBuffers_ops_shape env descSet
                    command.vertex_bindings command.vertex_bindings.buffers _ h1
                  simp at he
                · obtain ⟨bid, he⟩ := bindBuffers_ops_shape env descSet
                    command.fragment_bindings command.fragment_bindings.buffers _ h2
                  simp at he
              · obtain ⟨idx, s, tex, hm, hlk, hor⟩ := bindImages_ops_shape env descSet
                  command.fragment_bindings command.fragment_bindings.samplers _ h3
                rcases hor with he | he
                · simp only [Op.track.injEq, Res.tex.injEq] at he
                  exact ⟨idx, s, tex, hm, hlk, he⟩
                · simp at he
            · rcases List.mem_cons.mp h4 with he | h5
              · simp at he
              · simp at h5
          · intro sid hin
            rw [hops] at hin
            rcases List.mem_append.mp hin with h123 | h4
            · rcases List.mem_append.mp h123 with h12 | h3
              · rcases List.mem_append.mp h12 with h1 | h2
                · obtain ⟨bid, he⟩ := bindBuffers_ops_shape env descSet
                    command.vertex_bindings command.vertex_bindings.buffers _ h1
                  simp at he
                · obtain ⟨bid, he⟩ := bindBuffers_ops_shape env descSet
                    command.fragment_bindings command.fragment_bindings.buffers _ h2
                  simp at he
              · obtain ⟨idx, s, tex, hm, hlk, hor⟩ := bindImages_ops_shape env descSet
                  command.fragment_bindings command.fragment_bindings.samplers _ h3
                rcases hor with he | he
                · simp at he
                · simp only [Op.track.injEq, Res.sampler.injEq] at he
                  exact ⟨idx, s, hm, he⟩
            · rcases List.mem_cons.mp h4 with he | h5
              · simp at he
              · simp at h5
          · intro hub
            cases hv1 : (transitionBindingTextures env command.vertex_bindings.textures).1 with
            | false => simp [UpdateBindingLayoutsCommand, hv1] at hub
            | true =>
              cases hf1 : (transitionBindingTextures env
                  command.fragment_bindings.textures).1 with
              | false => simp [UpdateBindingLayoutsCommand, hv1, hf1] at hub
              | true =>
                rw [UpdateBindingLayoutsCommand]
                simp only [hv1, if_true]
                rw [transitionBindingTextures_success env _ hv1,
                  transitionBindingTextures_success env _ hf1, List.map_append]

theorem only_fragment_images_bound_witness :
    AllocateAndBindDescriptorSets envAllF cmdMixedF plF =
      (true, (AllocateAndBindDescriptorSets envAllF cmdMixedF plF).2) ∧
    ((∀ tid, Op.track (Res.tex tid) ∈ (AllocateAndBindDescriptorSets envAllF cmdMixedF plF).2 →
       ∃ idx s tex, (idx, s) ∈ cmdMixedF.fragment_bindings.samplers ∧
         cmdMixedF.fragment_bindings.textures.lookup idx = some tex ∧ tid = tex.id) ∧
     ((UpdateBindingLayoutsCommand envAllF cmdMixedF).1 = true →
       (UpdateBindingLayoutsCommand envAllF cmdMixedF).2 =
         (cmdMixedF.vertex_bindings.textures ++ cmdMixedF.fragment_bindings.textures).map
           fun q => Op.setLayout q.2.id Layout.shaderReadOnlyOptimal)) := by
  have h1 : (AllocateAndBindDescriptorSets envAllF cmdMixedF plF).1 = true := by decide
  have hok : AllocateAndBindDescriptorSets envAllF cmdMixedF plF =
      (true, (AllocateAndBindDescriptorSets envAllF cmdMixedF plF).2) := by
    rw [← h1]
  have h := only_fragment_images_bound envAllF cmdMixedF plF
    (AllocateAndBindDescriptorSets envAllF cmdMixedF plF).2 hok
  exact ⟨hok, h.2.1, h.2.2.2⟩

end RenderPassVKModel
